/-
Verification of the Concave effect-adapter layer: a shallow embedding of the
schema-to-validator bridge (`src/server/error.ts`), the document/model layer
(`src/server/model.ts`), the ordered-query adapter (`OrderedQuery.unique`), and the
function-registration/context-injection layer (`createServerFunctions`,
`GenericQueryCtx`/`GenericMutationCtx`), together with theorems about their behavior.
-/
import Mathlib

set_option linter.unusedVariables false
set_option linter.unusedTactic false
set_option linter.unreachableTactic false

namespace Concave

/-- Literal values occurring in `Literal` schema nodes. -/
inductive LitValue where
  | str (s : String)
  | num (n : Int)
  | boolean (b : Bool)
  | bigint (n : Int)
  | null
deriving DecidableEq, Repr

/-- A property name of a type literal: the effect AST allows `PropertyKey`, that is a
string or a symbol (modeled by the symbol's description). -/
inductive PropName where
  | str (name : String)
  | sym (description : String)

/-- Shallow embedding of the effect `SchemaAST.AST` node kinds handled by the bridge in
`src/server/error.ts` (`mapAstToValidator`), plus a representative set of node kinds the
bridge does not support (`UndefinedKeyword`, `SymbolKeyword`, ...). A `string` node carries
the optional `ConvexTableName` annotation. Tuple elements carry their `isOptional` flag;
a `typeLiteral` carries its property signatures `(name, type, isOptional)` and its index
signatures `(parameter, type)`. -/
inductive AST where
  | anyK
  | union (types : List AST)
  | literal (l : LitValue)
  | tuple (elements : List (AST × Bool)) (rest : List AST)
  | typeLiteral (props : List (PropName × AST × Bool)) (indexSigs : List (AST × AST))
  | number
  | bigint
  | boolean
  | string (tableName : Option String)
  | refinement (inner : AST)
  | transformation (inner : AST)
  | undefinedK
  | symbolK
  | objectK
  | neverK
  | unknownK
  | declaration
  | suspend

/-- The `_tag` of an AST node, as used in the bridge's error messages. -/
def astTag : AST → String
  | .anyK => "AnyKeyword"
  | .union _ => "Union"
  | .literal _ => "Literal"
  | .tuple _ _ => "TupleType"
  | .typeLiteral _ _ => "TypeLiteral"
  | .number => "NumberKeyword"
  | .bigint => "BigIntKeyword"
  | .boolean => "BooleanKeyword"
  | .string _ => "StringKeyword"
  | .refinement _ => "Refinement"
  | .transformation _ => "Transformation"
  | .undefinedK => "UndefinedKeyword"
  | .symbolK => "SymbolKeyword"
  | .objectK => "ObjectKeyword"
  | .neverK => "NeverKeyword"
  | .unknownK => "UnknownKeyword"
  | .declaration => "Declaration"
  | .suspend => "Suspend"

/-- Shallow embedding of the convex `Validator` trees produced by `v.any()`, `v.union(...)`,
`v.literal(...)`, `v.null()`, `v.array(...)`, `v.object({...})`, `v.record(...)`,
`v.number()`, `v.int64()`, `v.boolean()`, `v.string()`, `v.id(table)`, `v.optional(...)`. -/
inductive Validator where
  | vAny
  | vNull
  | vLiteral (l : LitValue)
  | vUnion (members : List Validator)
  | vArray (element : Validator)
  | vObject (fields : List (String × Validator))
  | vRecord (key value : Validator)
  | vFloat64
  | vInt64
  | vBoolean
  | vString
  | vId (tableName : String)
  | vOptional (inner : Validator)

/-- The synchronous construction errors thrown by the bridge. -/
inductive BridgeError where
  | unsupported (tag : String)
  | optionalTupleElement
  | emptyTuple
  | nonStringRecordKey (tag : String)
  | nonStringObjectKey
deriving DecidableEq, Repr

/-- The optional-property unwrap of `mapPropertySignaturesToVObject`: when a property is
optional and its declared type is encoded as a union, take the union's first member. -/
def unwrapUnionFirst : AST → AST
  | .union (t :: _) => t
  | ty => ty

theorem sizeOf_unwrapUnionFirst_le (ty : AST) : sizeOf (unwrapUnionFirst ty) ≤ sizeOf ty := by
  cases ty with
  | union ts =>
      cases ts with
      | nil => simp [unwrapUnionFirst]
      | cons t ts => simp [unwrapUnionFirst]; omega
  | _ => simp [unwrapUnionFirst]

/-- `String.isString(signature.name)`: whether a property name is a string (and not a
symbol). -/
def isStringName : PropName → Bool
  | .str _ => true
  | .sym _ => false

mutual

/-- Embedding of `mapAstToValidator` from `src/server/error.ts`: compute the validator by
the switch on the node kind (`mapAstToValidatorCore`), then wrap it in `v.optional` when
the node is an optional property. -/
def mapAstToValidator (ast : AST) (isOptionalProperty : Bool) : Except BridgeError Validator := do
  let validator ← mapAstToValidatorCore ast
  if isOptionalProperty then pure (.vOptional validator) else pure validator
termination_by (sizeOf ast, 1)
decreasing_by all_goals (simp_wf; omega)

/-- The switch of `mapAstToValidator` (its `switch (ast._tag)` body). -/
def mapAstToValidatorCore (ast : AST) : Except BridgeError Validator :=
  match ast with
  | .anyK => pure .vAny
  | .union types => do
      let memberValidators ← mapMembers types
      pure (.vUnion memberValidators)
  | .literal l => pure (if l = .null then .vNull else .vLiteral l)
  | .tuple elements rest => mapAstTupleTypeToVArray elements rest
  | .typeLiteral props indexSigs => mapAstTypeLiteralToValidator props indexSigs
  | .number => pure .vFloat64
  | .bigint => pure .vInt64
  | .boolean => pure .vBoolean
  | .string tableName =>
      pure (match tableName with | some t => .vId t | none => .vString)
  | .refinement inner => mapAstToValidator inner false
  | .transformation inner => mapAstToValidator inner false
  | other => throw (.unsupported (astTag other))
termination_by (sizeOf ast, 0)
decreasing_by all_goals (simp_wf; omega)

/-- The per-member mapping inside the `Union` case (`ast.types.map(mapAstToValidator)`). -/
def mapMembers (types : List AST) : Except BridgeError (List Validator) :=
  match types with
  | [] => pure []
  | t :: ts => do
      let v ← mapAstToValidator t false
      let vs ← mapMembers ts
      pure (v :: vs)
termination_by (sizeOf types, 0)
decreasing_by all_goals (simp_wf; omega)

/-- Embedding of `mapAstTupleTypeToVArray`. -/
def mapAstTupleTypeToVArray (elements : List (AST × Bool)) (rest : List AST) :
    Except BridgeError Validator := do
  let elementValidators ← mapElements elements
  let restTypeValidators ← mapMembers rest
  match elementValidators ++ restTypeValidators with
  | [] => throw .emptyTuple
  | [elementValidator] => pure (.vArray elementValidator)
  | elementValidator :: restValidators =>
      pure (.vArray (.vUnion (elementValidator :: restValidators)))
termination_by (sizeOf elements + sizeOf rest, 1)
decreasing_by all_goals (simp_wf; omega)

/-- The element loop of `mapAstTupleTypeToVArray`: throws on the first optional element. -/
def mapElements (elements : List (AST × Bool)) : Except BridgeError (List Validator) :=
  match elements with
  | [] => pure []
  | (ty, isOptionalElement) :: es =>
      if isOptionalElement then throw .optionalTupleElement
      else do
        let v ← mapAstToValidator ty false
        let vs ← mapElements es
        pure (v :: vs)
termination_by (sizeOf elements, 0)
decreasing_by all_goals (simp_wf; omega)

/-- Embedding of `mapAstTypeLiteralToValidator`. -/
def mapAstTypeLiteralToValidator (props : List (PropName × AST × Bool))
    (indexSigs : List (AST × AST)) : Except BridgeError Validator :=
  match indexSigs with
  | indexSignature :: _ => mapIndexSignatureToVRecord indexSignature
  | [] => mapPropertySignaturesToVObject props
termination_by (sizeOf props + sizeOf indexSigs, 2)
decreasing_by all_goals (simp_wf; omega)

/-- Embedding of `mapIndexSignatureToVRecord`. -/
def mapIndexSignatureToVRecord (signature : AST × AST) : Except BridgeError Validator :=
  match signature with
  | (.string tn, valueAst) => do
      let keyValidator ← mapAstToValidator (.string tn) false
      let valueValidator ← mapAstToValidator valueAst false
      pure (.vRecord keyValidator valueValidator)
  | (p, _) => throw (.nonStringRecordKey (astTag p))
termination_by (sizeOf signature, 0)
decreasing_by all_goals (simp_wf; omega)

/-- Embedding of `mapPropertySignaturesToVObject`. -/
def mapPropertySignaturesToVObject (props : List (PropName × AST × Bool)) :
    Except BridgeError Validator := do
  let fields ← mapProps props
  pure (.vObject fields)
termination_by (sizeOf props, 3)
decreasing_by all_goals (simp_wf; omega)

/-- The property loop of `mapPropertySignaturesToVObject`: a property whose name is not a
string throws (`Convex only supports string keys for objects`); an optional property whose
declared type is a union recurses into the union's first member only. -/
def mapProps (props : List (PropName × AST × Bool)) :
    Except BridgeError (List (String × Validator)) :=
  match props with
  | [] => pure []
  | (name, ty, isOptionalProperty) :: ps =>
      match name with
      | .sym _ => throw .nonStringObjectKey
      | .str fieldName => do
          let propertyAst := if isOptionalProperty then unwrapUnionFirst ty else ty
          let v ← mapAstToValidator propertyAst isOptionalProperty
          let fields ← mapProps ps
          pure ((fieldName, v) :: fields)
termination_by (sizeOf props, 0)
decreasing_by
  all_goals simp_wf
  all_goals try (have hq := sizeOf_unwrapUnionFirst_le ty; split <;> omega)
  all_goals omega

end

/-- Whether an Except result is an error (the bridge `throw`-ing). -/
def isErrorResult {ε α : Type} : Except ε α → Bool
  | .error _ => true
  | .ok _ => false

/-- Whether an AST node kind is in the set the bridge supports. -/
def isSupportedKind : AST → Bool
  | .anyK | .union _ | .literal _ | .tuple _ _ | .typeLiteral _ _ => true
  | .number | .bigint | .boolean | .string _ | .refinement _ | .transformation _ => true
  | _ => false

/-- Whether an AST node is a plain string node (possibly table-annotated). -/
def isStringKind : AST → Bool
  | .string _ => true
  | _ => false

mutual

/-- The constructs on which the bridge's traversal throws, as a syntactic predicate on the
schema tree, following the traversal: union members are all visited; tuple elements throw
when optional and are visited otherwise, rest elements are visited, and a tuple with no
element at all throws; a type literal with an index signature visits only the first index
signature, throwing on a non-string key parameter and visiting the value; a type literal
without index signatures visits each property, descending only into the first member of a
union type when the property is optional, and a property whose name is not a string
throws; refinement and transformation visit the inner node; the remaining node kinds are
unsupported and throw. -/
def reachesBad (ast : AST) : Bool :=
  match ast with
  | .anyK | .literal _ | .number | .bigint | .boolean | .string _ => false
  | .union ts => anyBadMember ts
  | .tuple es rest => anyBadElement es || anyBadMember rest || (es.isEmpty && rest.isEmpty)
  | .typeLiteral props idx =>
      match idx with
      | (p, v) :: _ => !isStringKind p || reachesBad v
      | [] => anyBadProp props
  | .refinement inner => reachesBad inner
  | .transformation inner => reachesBad inner
  | _ => true
termination_by (sizeOf ast, 0)
decreasing_by all_goals (simp_wf; omega)

def anyBadMember (types : List AST) : Bool :=
  match types with
  | [] => false
  | t :: ts => reachesBad t || anyBadMember ts
termination_by (sizeOf types, 0)
decreasing_by all_goals (simp_wf; omega)

def anyBadElement (elements : List (AST × Bool)) : Bool :=
  match elements with
  | [] => false
  | (ty, isOptionalElement) :: es => isOptionalElement || reachesBad ty || anyBadElement es
termination_by (sizeOf elements, 0)
decreasing_by all_goals (simp_wf; omega)

def anyBadProp (props : List (PropName × AST × Bool)) : Bool :=
  match props with
  | [] => false
  | (name, ty, isOptionalProperty) :: ps =>
      !isStringName name
        || reachesBad (if isOptionalProperty then unwrapUnionFirst ty else ty)
        || anyBadProp ps
termination_by (sizeOf props, 0)
decreasing_by
  all_goals simp_wf
  all_goals try (have hq := sizeOf_unwrapUnionFirst_le ty; split <;> omega)
  all_goals omega

end

mutual

/-- Syntactic containment of an offending construct anywhere in the schema tree, following
the claim wording: an optional tuple element, an index signature whose key parameter is not
a plain string node, or a node kind outside the supported set, occurring in any subterm. -/
def containsOffendingConstruct (ast : AST) : Bool :=
  match ast with
  | .anyK | .literal _ | .number | .bigint | .boolean | .string _ => false
  | .union ts => anyOffendingMember ts
  | .tuple es rest => anyOffendingElement es || anyOffendingMember rest
  | .typeLiteral props idx => anyOffendingProp props || anyOffendingIndexSig idx
  | .refinement inner => containsOffendingConstruct inner
  | .transformation inner => containsOffendingConstruct inner
  | _ => true
termination_by (sizeOf ast, 0)
decreasing_by all_goals (simp_wf; omega)

def anyOffendingMember (types : List AST) : Bool :=
  match types with
  | [] => false
  | t :: ts => containsOffendingConstruct t || anyOffendingMember ts
termination_by (sizeOf types, 0)
decreasing_by all_goals (simp_wf; omega)

def anyOffendingElement (elements : List (AST × Bool)) : Bool :=
  match elements with
  | [] => false
  | (ty, isOptionalElement) :: es =>
      isOptionalElement || containsOffendingConstruct ty || anyOffendingElement es
termination_by (sizeOf elements, 0)
decreasing_by all_goals (simp_wf; omega)

def anyOffendingProp (props : List (PropName × AST × Bool)) : Bool :=
  match props with
  | [] => false
  | (_, ty, _) :: ps => containsOffendingConstruct ty || anyOffendingProp ps
termination_by (sizeOf props, 0)
decreasing_by all_goals (simp_wf; omega)

def anyOffendingIndexSig (indexSigs : List (AST × AST)) : Bool :=
  match indexSigs with
  | [] => false
  | (p, v) :: idx =>
      !isStringKind p || containsOffendingConstruct p || containsOffendingConstruct v
        || anyOffendingIndexSig idx
termination_by (sizeOf indexSigs, 0)
decreasing_by all_goals (simp_wf; omega)

end

/-- The typed failure values of the adapter layer (`src/server/error.ts` and the effect
ParseError raised by encode/decode): document-not-found, document-not-unique, and the
decode/encode failure. -/
inductive ConcaveError where
  | docNotFound
  | docNotUnique
  | parseError
deriving DecidableEq, Repr

/-- The outcome of running one effect computation: a success value, a typed failure in the
error channel, or a defect (`E.die` / `E.orDieWith`), which ordinary typed-error recovery
does not see. -/
inductive Outcome (α : Type) where
  | success (value : α)
  | failure (error : ConcaveError)
  | die (message : String)
deriving DecidableEq, Repr

/-- `OrderedQuery.take(n)`: the host returns the first `n` results of the query, modeled on
the query result sequence. -/
def takeQuery {α : Type} (n : Nat) (docs : List α) : List α := docs.take n

/-- Embedding of `OrderedQuery.unique` from the query adapter: `take(2)`, then fail with
the not-unique error when more than one document came back, otherwise succeed with
`docs[0] ?? null` converted through `Option.fromNullable`. -/
def uniqueQuery {α : Type} (docs : List α) : Outcome (Option α) :=
  let ds := takeQuery 2 docs
  if ds.length > 1 then .failure .docNotUnique
  else .success ds.head?


/-- A property of one of the model layer's derived document schemas: a field name, the
field's schema node, and whether the field is optional. -/
structure ModelField where
  name : String
  type : AST
  isOptional : Bool

/-- `DocId(tableName)` from `src/server/model.ts`: `S.String` annotated with the
`ConvexTableName` symbol. -/
def DocId (tableName : String) : AST := .string (some tableName)

/-- `SystemFields(tableName)`: the struct `{_id: DocId(tableName), _creationTime: S.Number}`. -/
def SystemFields (tableName : String) : List ModelField :=
  [⟨"_id", DocId tableName, false⟩, ⟨"_creationTime", .number, false⟩]

/-- `S.partial`: every field of the struct becomes optional. -/
def markAllOptional (fields : List ModelField) : List ModelField :=
  fields.map fun f => ⟨f.name, f.type, true⟩

/-- `S.extend` on two structs whose field names are disjoint concatenates the property
signatures of the two structs in order. -/
def extendFields (a b : List ModelField) : List ModelField := a ++ b

/-- `OptionalSystemFields(tableName)`: the system-fields struct piped through `S.partial`. -/
def OptionalSystemFields (tableName : String) : List ModelField :=
  markAllOptional (SystemFields tableName)

/-- The four derived document shapes produced by `model` in `src/server/model.ts`. -/
structure ModelShapes where
  DocumentWithoutSystemFields : List ModelField
  Document : List ModelField
  DocumentWithOptionalSystemFields : List ModelField
  PartialDocument : List ModelField

/-- Embedding of `model(tableName, schema)` from `src/server/model.ts`: the create shape is
the user schema itself; the optional-identity shape extends it with
`OptionalSystemFields(tableName)`; the full-document shape extends it with
`SystemFields(tableName)`; the update shape is `S.partial` of the full-document shape.
Annotations (identifier, title, description) do not change the shapes and are omitted. -/
def model (tableName : String) (schema : List ModelField) : ModelShapes :=
  let DocumentWithoutSystemFields := schema
  let DocumentWithOptionalSystemFields :=
    extendFields DocumentWithoutSystemFields (OptionalSystemFields tableName)
  let Document := extendFields DocumentWithoutSystemFields (SystemFields tableName)
  let PartialDocument := markAllOptional Document
  ⟨DocumentWithoutSystemFields, Document, DocumentWithOptionalSystemFields, PartialDocument⟩

/-- Primitive runtime values stored in document fields. -/
inductive Prim where
  | n (value : Int)
  | s (value : String)
  | b (value : Bool)
deriving DecidableEq, Repr

/-- A runtime document value: a list of field name / primitive pairs. -/
abbrev Value := List (String × Prim)

/-- Look a field up in a runtime document value. -/
def lookupField (v : Value) (name : String) : Option Prim :=
  (v.find? (fun e => e.1 == name)).map (fun e => e.2)

/-- Whether a primitive literal value equals a schema literal. -/
def conformsLit (p : Prim) (l : LitValue) : Bool :=
  match p, l with
  | .n i, .num j => i == j
  | .s a, .str c => a == c
  | .b x, .boolean y => x == y
  | _, _ => false

mutual

/-- Whether a primitive value conforms to a schema node on the encoded side: any accepts
everything, a union accepts a value any member accepts, a literal accepts its value,
number/string/boolean accept the matching primitives (an identifier-annotated string node
accepts strings), and refinement and transformation defer to their encoded inner node. -/
def conformsAst (p : Prim) (ast : AST) : Bool :=
  match ast with
  | .anyK => true
  | .union ts => conformsAnyMember p ts
  | .literal l => conformsLit p l
  | .number => match p with | .n _ => true | _ => false
  | .string _ => match p with | .s _ => true | _ => false
  | .boolean => match p with | .b _ => true | _ => false
  | .refinement inner => conformsAst p inner
  | .transformation inner => conformsAst p inner
  | _ => false
termination_by (sizeOf ast, 0)
decreasing_by all_goals (simp_wf; omega)

def conformsAnyMember (p : Prim) (types : List AST) : Bool :=
  match types with
  | [] => false
  | t :: ts => conformsAst p t || conformsAnyMember p ts
termination_by (sizeOf types, 0)
decreasing_by all_goals (simp_wf; omega)

end

/-- Whether a runtime document value provides a conforming field for one schema field:
a present field must conform to the field's node; a missing field is accepted exactly when
the field is optional. -/
def conformsField (v : Value) (f : ModelField) : Bool :=
  match lookupField v f.name with
  | some p => conformsAst p f.type
  | none => f.isOptional

/-- Whether a runtime document value conforms to a derived document shape. -/
def conformsShape (shape : List ModelField) (v : Value) : Bool :=
  shape.all (conformsField v)

/-- `S.encode(Shape)(value)` as used by insert/patch/replace: succeeds with the encoded
value exactly when the value conforms to the shape, and fails with the effect ParseError
otherwise. For the primitive-field document shapes modeled here encoding is the identity
on the conforming value. -/
def encodeShape (shape : List ModelField) (v : Value) : Except Unit Value :=
  if conformsShape shape v then .ok v else .error ()

/-- The database state held by the host runtime: stored documents by identifier, plus the
next fresh identifier. -/
structure DbState where
  docs : List (Nat × Value)
  nextId : Nat
deriving DecidableEq, Repr

/-- The host runtime's native database operations, wrapped one-to-one by the adapters in
`src/server/database.ts`. The adapter passes calls through, so the model-layer claims are
stated over an arbitrary host; `stdHost` below is the consistent host. -/
structure Host where
  get : DbState → Nat → Option Value
  insert : DbState → String → Value → Nat × DbState
  patch : DbState → Nat → Value → DbState
  replace : DbState → Nat → Value → DbState
  delete : DbState → Nat → DbState

/-- Convex `db.patch` merge: fields of the patch override the stored document's fields. -/
def mergeValues (old new : Value) : Value :=
  old.filter (fun e => !(new.any (fun x => x.1 == e.1))) ++ new

/-- The consistent host: `get` looks the identifier up, `insert` appends under a fresh
identifier, `patch` merges into the stored document, `replace` overwrites it, and `delete`
removes it (and is a no-op when the document is already absent). -/
def stdHost : Host where
  get s docId := (s.docs.find? (fun e => e.1 == docId)).map (fun e => e.2)
  insert s _ doc := (s.nextId, ⟨s.docs ++ [(s.nextId, doc)], s.nextId + 1⟩)
  patch s docId p :=
    ⟨s.docs.map (fun e => if e.1 == docId then (e.1, mergeValues e.2 p) else e), s.nextId⟩
  replace s docId doc :=
    ⟨s.docs.map (fun e => if e.1 == docId then (e.1, doc) else e), s.nextId⟩
  delete s docId := ⟨s.docs.filter (fun e => e.1 != docId), s.nextId⟩

/-- `S.decodeUnknownSync(Document)` applied to an already-stored (encoded) document: for the
primitive-field document shapes modeled here decoding is the identity; a decode throw would
be a defect, which none of the verified claims exercises. -/
def decodeDocument (doc : Value) : Value := doc

/-- Embedding of the model layer's `getById`: `db.get`, then `OptionSuccedOrFail` failing
with the document-not-found error on `Option.None`, then decoding the document. -/
def getById (host : Host) (docId : Nat) (s : DbState) : Outcome Value × DbState :=
  match host.get s docId with
  | none => (.failure .docNotFound, s)
  | some doc => (.success (decodeDocument doc), s)

/-- Embedding of `getByIdNullable`: `getById` matched with `onFailure: () => null`,
`onSuccess: doc => doc`; `null` is modeled as `Option.none` in the success channel. -/
def getByIdNullable (host : Host) (docId : Nat) (s : DbState) : Outcome (Option Value) × DbState :=
  match getById host docId s with
  | (.success doc, s2) => (.success (some doc), s2)
  | (.failure _, s2) => (.success none, s2)
  | (.die m, s2) => (.die m, s2)

/-- Embedding of `getByIdOption`: `db.get` mapped through `Option.map` of the decoder;
absence stays the absent marker and is never a failure. -/
def getByIdOption (host : Host) (docId : Nat) (s : DbState) : Outcome (Option Value) × DbState :=
  (.success ((host.get s docId).map decodeDocument), s)

/-- Embedding of `insert`: encode the value against the create shape
(`DocumentWithoutSystemFields`); only on success call `db.insert` with the encoded value
and succeed with the new identifier; an encode failure is the typed ParseError and the
host is never called. -/
def insert (shapes : ModelShapes) (tableName : String) (host : Host) (value : Value)
    (s : DbState) : Outcome Nat × DbState :=
  match encodeShape shapes.DocumentWithoutSystemFields value with
  | .error _ => (.failure .parseError, s)
  | .ok enc =>
      let r := host.insert s tableName enc
      (.success r.1, r.2)

/-- Embedding of `insertAndGet`: `insert`, then `getById` on the returned identifier with
`E.orDieWith` turning a re-read failure into a defect. -/
def insertAndGet (shapes : ModelShapes) (tableName : String) (host : Host) (value : Value)
    (s : DbState) : Outcome Value × DbState :=
  match insert shapes tableName host value s with
  | (.success docId, s2) =>
      (match getById host docId s2 with
       | (.failure _, s3) => (.die "Could not found inserted doc", s3)
       | other => other)
  | (.failure e, s2) => (.failure e, s2)
  | (.die m, s2) => (.die m, s2)

/-- Embedding of `patchById`: encode against the update shape (`PartialDocument`), then
`db.patch` with the encoded value. -/
def patchById (shapes : ModelShapes) (host : Host) (docId : Nat) (value : Value)
    (s : DbState) : Outcome Unit × DbState :=
  match encodeShape shapes.PartialDocument value with
  | .error _ => (.failure .parseError, s)
  | .ok enc => (.success (), host.patch s docId enc)

/-- Embedding of `patchByIdAndGet`: `patchById`, then `getById` with `E.orDieWith`. -/
def patchByIdAndGet (shapes : ModelShapes) (host : Host) (docId : Nat) (value : Value)
    (s : DbState) : Outcome Value × DbState :=
  match patchById shapes host docId value s with
  | (.success _, s2) =>
      (match getById host docId s2 with
       | (.failure _, s3) => (.die ("Could not found patched doc: " ++ toString docId), s3)
       | other => other)
  | (.failure e, s2) => (.failure e, s2)
  | (.die m, s2) => (.die m, s2)

/-- Embedding of `replaceById`: encode against the optional-identity shape
(`DocumentWithOptionalSystemFields`), then `db.replace` with the encoded value. -/
def replaceById (shapes : ModelShapes) (host : Host) (docId : Nat) (value : Value)
    (s : DbState) : Outcome Unit × DbState :=
  match encodeShape shapes.DocumentWithOptionalSystemFields value with
  | .error _ => (.failure .parseError, s)
  | .ok enc => (.success (), host.replace s docId enc)

/-- Embedding of `replaceByIdAndGet`: `replaceById`, then `getById` with `E.orDieWith`. -/
def replaceByIdAndGet (shapes : ModelShapes) (host : Host) (docId : Nat) (value : Value)
    (s : DbState) : Outcome Value × DbState :=
  match replaceById shapes host docId value s with
  | (.success _, s2) =>
      (match getById host docId s2 with
       | (.failure _, s3) => (.die ("Could not found replaced doc: " ++ toString docId), s3)
       | other => other)
  | (.failure e, s2) => (.failure e, s2)
  | (.die m, s2) => (.die m, s2)

/-- Embedding of `deleteById`: an unconditional `db.delete`. -/
def deleteById (host : Host) (docId : Nat) (s : DbState) : Outcome Unit × DbState :=
  (.success (), host.delete s docId)

/-- `E.catchAll` over a stateful computation: a typed failure is handed to the handler;
successes and defects pass through untouched. -/
def catchAllOutcome {α : Type} (comp : DbState → Outcome α × DbState)
    (handler : ConcaveError → DbState → Outcome α × DbState) (s : DbState) :
    Outcome α × DbState :=
  match comp s with
  | (.failure e, s2) => handler e s2
  | other => other

/-- A witness host whose reads always miss: it behaves like `stdHost` on `insert` but its
`get` finds nothing, the scenario in which a post-write re-read fails. -/
def forgetfulHost : Host where
  get _ _ := none
  insert s _ doc := (s.nextId, ⟨s.docs ++ [(s.nextId, doc)], s.nextId + 1⟩)
  patch s _ _ := s
  replace s _ _ := s
  delete s _ := s


/-- The host runtime's native mutation context: opaque handles for the auth, database,
storage and scheduler objects. -/
structure NativeMutationCtx where
  auth : Nat
  db : Nat
  storage : Nat
  scheduler : Nat
deriving DecidableEq, Repr

/-- The host runtime's native query context: the mutation context without the scheduler
(and with a read-only database handle). -/
structure NativeQueryCtx where
  auth : Nat
  db : Nat
  storage : Nat
deriving DecidableEq, Repr

/-- The `Auth` wrapper class: it holds the native auth handle. -/
structure Auth where
  native : Nat
deriving DecidableEq, Repr

/-- The `GenericDatabaseReader` wrapper class: it holds the native database handle. -/
structure GenericDatabaseReader where
  native : Nat
deriving DecidableEq, Repr

/-- The `GenericDatabaseWriter` wrapper class: it holds the native database handle. -/
structure GenericDatabaseWriter where
  native : Nat
deriving DecidableEq, Repr

/-- The `StorageReader` wrapper class: it holds the native storage handle. -/
structure StorageReader where
  native : Nat
deriving DecidableEq, Repr

/-- The `StorageWriter` wrapper class: it holds the native storage handle. -/
structure StorageWriter where
  native : Nat
deriving DecidableEq, Repr

/-- The `Scheduler` wrapper class: it holds the native scheduler handle. -/
structure Scheduler where
  native : Nat
deriving DecidableEq, Repr

/-- The `GenericQueryCtx` service bundle from `src/server/context.ts`: auth, a database
reader and a storage reader, each wrapping the corresponding member of the native context
the constructor received. -/
structure GenericQueryCtx where
  auth : Auth
  db : GenericDatabaseReader
  storage : StorageReader
deriving DecidableEq, Repr

/-- The `GenericMutationCtx` service bundle: auth, a database writer, a storage writer and
a scheduler, each wrapping the corresponding member of the native mutation context. -/
structure GenericMutationCtx where
  auth : Auth
  db : GenericDatabaseWriter
  storage : StorageWriter
  scheduler : Scheduler
deriving DecidableEq, Repr

/-- `new GenericQueryCtx(convexQueryCtx)`. -/
def mkGenericQueryCtx (native : NativeQueryCtx) : GenericQueryCtx :=
  ⟨⟨native.auth⟩, ⟨native.db⟩, ⟨native.storage⟩⟩

/-- `new GenericQueryCtx(convexMutationCtx)`: a native mutation context is structurally a
query context, so the constructor reads the same auth, database and storage members. -/
def mkGenericQueryCtxOfMutation (native : NativeMutationCtx) : GenericQueryCtx :=
  ⟨⟨native.auth⟩, ⟨native.db⟩, ⟨native.storage⟩⟩

/-- `new GenericMutationCtx(convexMutationCtx)`. -/
def mkGenericMutationCtx (native : NativeMutationCtx) : GenericMutationCtx :=
  ⟨⟨native.auth⟩, ⟨native.db⟩, ⟨native.storage⟩, ⟨native.scheduler⟩⟩

/-- The structural-subtyping view of a native mutation context as a native query context. -/
def toNativeQueryCtx (native : NativeMutationCtx) : NativeQueryCtx :=
  ⟨native.auth, native.db, native.storage⟩

/-- A service that can be provided into the ambient effect context, keyed by its tag
(`QueryCtx` or `MutationCtx`). -/
inductive Service where
  | query (ctx : GenericQueryCtx)
  | mutation (ctx : GenericMutationCtx)
deriving DecidableEq, Repr

/-- `E.provideService(tag, service)`: run the effect with the service added to the ambient
context (the most recently provided service for a tag wins). -/
def provideService {ρ : Type} (service : Service) (eff : List Service → ρ) :
    List Service → ρ :=
  fun ctx => eff (service :: ctx)

/-- Resolve the `QueryCtx` tag from the ambient context. -/
def resolveQueryCtx : List Service → Option GenericQueryCtx
  | [] => none
  | .query q :: _ => some q
  | _ :: rest => resolveQueryCtx rest

/-- Resolve the `MutationCtx` tag from the ambient context. -/
def resolveMutationCtx : List Service → Option GenericMutationCtx
  | [] => none
  | .mutation m :: _ => some m
  | _ :: rest => resolveMutationCtx rest

/-- Embedding of the `mutation` builder of `createServerFunctions`: at invocation time the
handler effect is piped through `E.provideService(QueryCtx, new GenericQueryCtx(ctx))` and
then `E.provideService(MutationCtx, new GenericMutationCtx(ctx))`, both wrappers built from
the same native mutation context, and then run. -/
def runMutationHandler {ρ : Type} (handler : List Service → ρ)
    (native : NativeMutationCtx) : ρ :=
  (provideService (.mutation (mkGenericMutationCtx native))
    (provideService (.query (mkGenericQueryCtxOfMutation native)) handler)) []

/-- Embedding of the `internalMutation` builder: it wraps the handler exactly as the
`mutation` builder does, differing only in the host-visibility of the registered function. -/
def runInternalMutationHandler {ρ : Type} (handler : List Service → ρ)
    (native : NativeMutationCtx) : ρ :=
  (provideService (.mutation (mkGenericMutationCtx native))
    (provideService (.query (mkGenericQueryCtxOfMutation native)) handler)) []

/-- Embedding of the `query` builder: the handler effect receives only the `QueryCtx`
service, built from the native query context. -/
def runQueryHandler {ρ : Type} (handler : List Service → ρ) (native : NativeQueryCtx) : ρ :=
  (provideService (.query (mkGenericQueryCtx native)) handler) []

/-- An effect that requires only the query context (such as the model layer's `getById`):
it resolves the `QueryCtx` tag and consumes nothing else; a missing service would be a
defect, modeled as `Option.none`. -/
def requiresQueryCtx {ρ : Type} (f : GenericQueryCtx → ρ) : List Service → Option ρ :=
  fun ctx => (resolveQueryCtx ctx).map f


theorem pure_eq_ok {ε α : Type} (a : α) : (pure a : Except ε α) = .ok a := rfl

theorem throw_eq_error {ε α : Type} (e : ε) : (throw e : Except ε α) = .error e := rfl

theorem ok_bind {ε α β : Type} (a : α) (f : α → Except ε β) :
    (Except.ok a : Except ε α) >>= f = f a := rfl

theorem error_bind {ε α β : Type} (e : ε) (f : α → Except ε β) :
    (Except.error e : Except ε α) >>= f = .error e := rfl

theorem isErrorResult_bind {ε α β : Type} (x : Except ε α) (f : α → Except ε β)
    (h : ∀ a, isErrorResult (f a) = false) : isErrorResult (x >>= f) = isErrorResult x := by
  cases x with
  | error e => rfl
  | ok a => exact h a

theorem isErrorResult_bind_pure {ε α β : Type} (x : Except ε α) (g : α → β) :
    isErrorResult (x >>= fun a => pure (g a)) = isErrorResult x :=
  isErrorResult_bind x _ (fun a => rfl)

theorem isErrorResult_wrapOptional (x : Except BridgeError Validator) (b : Bool) :
    isErrorResult
        (x >>= fun validator =>
          if b then pure (.vOptional validator) else pure validator)
      = isErrorResult x :=
  isErrorResult_bind x _ (fun a => by cases b <;> rfl)

theorem isErrorResult_true_iff {ε α : Type} (x : Except ε α) :
    isErrorResult x = true ↔ ∃ e, x = .error e := by
  cases x <;> simp [isErrorResult]

theorem mapMembers_ok_length (ts : List AST) (vs : List Validator)
    (h : mapMembers ts = .ok vs) : vs.length = ts.length := by
  induction ts generalizing vs with
  | nil =>
      simp only [mapMembers, pure_eq_ok] at h
      cases h
      rfl
  | cons t ts ih =>
      simp only [mapMembers] at h
      cases h1 : mapAstToValidator t false with
      | error e => rw [h1, error_bind] at h; cases h
      | ok v =>
          rw [h1, ok_bind] at h
          cases h2 : mapMembers ts with
          | error e => rw [h2, error_bind] at h; cases h
          | ok vs2 =>
              rw [h2, ok_bind, pure_eq_ok] at h
              cases h
              simp [ih vs2 h2]

theorem mapElements_ok_length (es : List (AST × Bool)) (vs : List Validator)
    (h : mapElements es = .ok vs) : vs.length = es.length := by
  induction es generalizing vs with
  | nil =>
      simp only [mapElements, pure_eq_ok] at h
      cases h
      rfl
  | cons e es ih =>
      obtain ⟨ty, isOpt⟩ := e
      simp only [mapElements] at h
      cases isOpt with
      | true => simp [throw_eq_error] at h
      | false =>
          simp only [Bool.false_eq_true, if_false] at h
          cases h1 : mapAstToValidator ty false with
          | error e => rw [h1, error_bind] at h; cases h
          | ok v =>
              rw [h1, ok_bind] at h
              cases h2 : mapElements es with
              | error e => rw [h2, error_bind] at h; cases h
              | ok vs2 =>
                  rw [h2, ok_bind, pure_eq_ok] at h
                  cases h
                  simp [ih vs2 h2]

mutual

/-- The bridge throws exactly on the constructs described by `reachesBad`. -/
theorem isErrorResult_mapAstToValidator (ast : AST) (isOptionalProperty : Bool) :
    isErrorResult (mapAstToValidator ast isOptionalProperty) = reachesBad ast := by
  rw [mapAstToValidator]
  rw [isErrorResult_wrapOptional]
  exact isErrorResult_mapAstToValidatorCore ast
termination_by (sizeOf ast, 6)
decreasing_by all_goals (simp_wf; omega)

theorem isErrorResult_mapAstToValidatorCore (ast : AST) :
    isErrorResult (mapAstToValidatorCore ast) = reachesBad ast := by
  cases ast with
  | anyK => simp [mapAstToValidatorCore, reachesBad, isErrorResult, pure_eq_ok]
  | union ts =>
      simp only [mapAstToValidatorCore]
      rw [isErrorResult_bind_pure]
      rw [isErrorResult_mapMembers ts]
      simp only [reachesBad]
  | literal l => simp [mapAstToValidatorCore, reachesBad, isErrorResult, pure_eq_ok]
  | tuple es rest =>
      simp only [mapAstToValidatorCore]
      rw [isErrorResult_mapAstTupleTypeToVArray es rest]
      simp only [reachesBad]
  | typeLiteral props idx =>
      simp only [mapAstToValidatorCore]
      rw [isErrorResult_mapAstTypeLiteralToValidator props idx]
      cases idx with
      | nil => simp only [reachesBad]
      | cons sig rest => obtain ⟨p, v⟩ := sig; simp only [reachesBad]
  | number => simp [mapAstToValidatorCore, reachesBad, isErrorResult, pure_eq_ok]
  | bigint => simp [mapAstToValidatorCore, reachesBad, isErrorResult, pure_eq_ok]
  | boolean => simp [mapAstToValidatorCore, reachesBad, isErrorResult, pure_eq_ok]
  | string tn =>
      cases tn <;> simp [mapAstToValidatorCore, reachesBad, isErrorResult, pure_eq_ok]
  | refinement inner =>
      simp only [mapAstToValidatorCore]
      rw [isErrorResult_mapAstToValidator inner false]
      simp only [reachesBad]
  | transformation inner =>
      simp only [mapAstToValidatorCore]
      rw [isErrorResult_mapAstToValidator inner false]
      simp only [reachesBad]
  | undefinedK => simp [mapAstToValidatorCore, reachesBad, isErrorResult, throw_eq_error]
  | symbolK => simp [mapAstToValidatorCore, reachesBad, isErrorResult, throw_eq_error]
  | objectK => simp [mapAstToValidatorCore, reachesBad, isErrorResult, throw_eq_error]
  | neverK => simp [mapAstToValidatorCore, reachesBad, isErrorResult, throw_eq_error]
  | unknownK => simp [mapAstToValidatorCore, reachesBad, isErrorResult, throw_eq_error]
  | declaration => simp [mapAstToValidatorCore, reachesBad, isErrorResult, throw_eq_error]
  | suspend => simp [mapAstToValidatorCore, reachesBad, isErrorResult, throw_eq_error]
termination_by (sizeOf ast, 5)
decreasing_by all_goals (simp_wf; omega)

theorem isErrorResult_mapMembers (ts : List AST) :
    isErrorResult (mapMembers ts) = anyBadMember ts := by
  cases ts with
  | nil => simp [mapMembers, anyBadMember, isErrorResult, pure_eq_ok]
  | cons t ts =>
      simp only [mapMembers, anyBadMember]
      have ht := isErrorResult_mapAstToValidator t false
      cases h1 : mapAstToValidator t false with
      | error e =>
          rw [h1] at ht
          rw [error_bind, ← ht]
          rfl
      | ok v =>
          rw [h1] at ht
          rw [ok_bind, ← ht]
          rw [isErrorResult_bind_pure]
          rw [isErrorResult_mapMembers ts]
          rfl
termination_by (sizeOf ts, 4)
decreasing_by all_goals (simp_wf; omega)

theorem isErrorResult_mapElements (es : List (AST × Bool)) :
    isErrorResult (mapElements es) = anyBadElement es := by
  cases es with
  | nil => simp [mapElements, anyBadElement, isErrorResult, pure_eq_ok]
  | cons e es =>
      obtain ⟨ty, isOpt⟩ := e
      simp only [mapElements, anyBadElement]
      cases isOpt with
      | true => simp [isErrorResult, throw_eq_error]
      | false =>
          simp only [Bool.false_eq_true, if_false, Bool.false_or]
          have ht := isErrorResult_mapAstToValidator ty false
          cases h1 : mapAstToValidator ty false with
          | error er =>
              rw [h1] at ht
              rw [error_bind, ← ht]
              rfl
          | ok v =>
              rw [h1] at ht
              rw [ok_bind, ← ht]
              rw [isErrorResult_bind_pure]
              rw [isErrorResult_mapElements es]
              rfl
termination_by (sizeOf es, 4)
decreasing_by all_goals (simp_wf; omega)

theorem isErrorResult_mapAstTupleTypeToVArray (es : List (AST × Bool)) (rest : List AST) :
    isErrorResult (mapAstTupleTypeToVArray es rest)
      = (anyBadElement es || anyBadMember rest || (es.isEmpty && rest.isEmpty)) := by
  simp only [mapAstTupleTypeToVArray]
  have he := isErrorResult_mapElements es
  cases h1 : mapElements es with
  | error e =>
      rw [h1] at he
      rw [error_bind, ← he]
      simp [isErrorResult]
  | ok evs =>
      rw [h1] at he
      rw [ok_bind]
      have hr := isErrorResult_mapMembers rest
      cases h2 : mapMembers rest with
      | error e =>
          rw [h2] at hr
          rw [error_bind, ← hr, ← he]
          simp [isErrorResult]
      | ok rvs =>
          rw [h2] at hr
          rw [ok_bind, ← he, ← hr]
          simp only [isErrorResult, Bool.false_or]
          have hlen1 := mapElements_ok_length es evs h1
          have hlen2 := mapMembers_ok_length rest rvs h2
          cases hconc : evs ++ rvs with
          | nil =>
              have h3 := List.append_eq_nil.mp hconc
              have h4 : es = [] := by
                have : es.length = 0 := by rw [← hlen1, h3.1]; rfl
                exact List.length_eq_zero.mp this
              have h5 : rest = [] := by
                have : rest.length = 0 := by rw [← hlen2, h3.2]; rfl
                exact List.length_eq_zero.mp this
              subst h4
              subst h5
              simp [isErrorResult, throw_eq_error, pure_eq_ok]
          | cons v vs =>
              have h6 : (es.isEmpty && rest.isEmpty) = false := by
                rcases es with _ | ⟨e0, es2⟩
                · rcases rest with _ | ⟨r0, rest2⟩
                  · exfalso
                    have : evs = [] := List.length_eq_zero.mp (by rw [hlen1]; rfl)
                    have h7 : rvs = [] := List.length_eq_zero.mp (by rw [hlen2]; rfl)
                    rw [this, h7] at hconc
                    cases hconc
                  · simp
                · simp
              rw [h6]
              cases vs <;> simp [isErrorResult, pure_eq_ok]
termination_by (sizeOf es + sizeOf rest, 5)
decreasing_by all_goals (simp_wf; omega)

theorem isErrorResult_mapAstTypeLiteralToValidator (props : List (PropName × AST × Bool))
    (idx : List (AST × AST)) :
    isErrorResult (mapAstTypeLiteralToValidator props idx)
      = (match idx with
         | (p, v) :: _ => !isStringKind p || reachesBad v
         | [] => anyBadProp props) := by
  cases idx with
  | nil =>
      simp only [mapAstTypeLiteralToValidator]
      exact isErrorResult_mapPropertySignaturesToVObject props
  | cons sig rest =>
      obtain ⟨p, v⟩ := sig
      simp only [mapAstTypeLiteralToValidator]
      exact isErrorResult_mapIndexSignatureToVRecord (p, v)
termination_by (sizeOf props + sizeOf idx, 5)
decreasing_by all_goals (simp_wf; omega)

theorem isErrorResult_mapIndexSignatureToVRecord (signature : AST × AST) :
    isErrorResult (mapIndexSignatureToVRecord signature)
      = (!isStringKind signature.1 || reachesBad signature.2) := by
  obtain ⟨p, v⟩ := signature
  cases p with
  | string tn =>
      simp only [mapIndexSignatureToVRecord, isStringKind, Bool.not_true, Bool.false_or]
      have hk := isErrorResult_mapAstToValidator (.string tn) false
      rw [show reachesBad (.string tn) = false from by rw [reachesBad]] at hk
      cases h1 : mapAstToValidator (.string tn) false with
      | error e => rw [h1] at hk; simp [isErrorResult] at hk
      | ok kv =>
          rw [ok_bind]
          have hv := isErrorResult_mapAstToValidator v false
          cases h2 : mapAstToValidator v false with
          | error e =>
              rw [h2] at hv
              rw [error_bind, ← hv]
              try rfl
          | ok vv =>
              rw [h2] at hv
              rw [ok_bind, ← hv]
              try rfl
  | anyK => simp [mapIndexSignatureToVRecord, isStringKind, isErrorResult, throw_eq_error]
  | union ts => simp [mapIndexSignatureToVRecord, isStringKind, isErrorResult, throw_eq_error]
  | literal l => simp [mapIndexSignatureToVRecord, isStringKind, isErrorResult, throw_eq_error]
  | tuple es rest =>
      simp [mapIndexSignatureToVRecord, isStringKind, isErrorResult, throw_eq_error]
  | typeLiteral props idx =>
      simp [mapIndexSignatureToVRecord, isStringKind, isErrorResult, throw_eq_error]
  | number => simp [mapIndexSignatureToVRecord, isStringKind, isErrorResult, throw_eq_error]
  | bigint => simp [mapIndexSignatureToVRecord, isStringKind, isErrorResult, throw_eq_error]
  | boolean => simp [mapIndexSignatureToVRecord, isStringKind, isErrorResult, throw_eq_error]
  | refinement inner =>
      simp [mapIndexSignatureToVRecord, isStringKind, isErrorResult, throw_eq_error]
  | transformation inner =>
      simp [mapIndexSignatureToVRecord, isStringKind, isErrorResult, throw_eq_error]
  | undefinedK => simp [mapIndexSignatureToVRecord, isStringKind, isErrorResult, throw_eq_error]
  | symbolK => simp [mapIndexSignatureToVRecord, isStringKind, isErrorResult, throw_eq_error]
  | objectK => simp [mapIndexSignatureToVRecord, isStringKind, isErrorResult, throw_eq_error]
  | neverK => simp [mapIndexSignatureToVRecord, isStringKind, isErrorResult, throw_eq_error]
  | unknownK => simp [mapIndexSignatureToVRecord, isStringKind, isErrorResult, throw_eq_error]
  | declaration =>
      simp [mapIndexSignatureToVRecord, isStringKind, isErrorResult, throw_eq_error]
  | suspend => simp [mapIndexSignatureToVRecord, isStringKind, isErrorResult, throw_eq_error]
termination_by (sizeOf signature, 4)
decreasing_by all_goals (simp_wf; omega)

theorem isErrorResult_mapPropertySignaturesToVObject (props : List (PropName × AST × Bool)) :
    isErrorResult (mapPropertySignaturesToVObject props) = anyBadProp props := by
  rw [mapPropertySignaturesToVObject]
  rw [isErrorResult_bind_pure]
  exact isErrorResult_mapProps props
termination_by (sizeOf props, 4)
decreasing_by all_goals (simp_wf; omega)

theorem isErrorResult_mapProps (props : List (PropName × AST × Bool)) :
    isErrorResult (mapProps props) = anyBadProp props := by
  cases props with
  | nil => simp [mapProps, anyBadProp, isErrorResult, pure_eq_ok]
  | cons e ps =>
      obtain ⟨name, ty, isOpt⟩ := e
      cases name with
      | sym d =>
          simp [mapProps, anyBadProp, isStringName, isErrorResult, throw_eq_error]
      | str fieldName =>
          simp only [mapProps, anyBadProp, isStringName, Bool.not_true, Bool.false_or]
          have hp := isErrorResult_mapAstToValidator
            (if isOpt then unwrapUnionFirst ty else ty) isOpt
          cases h1 : mapAstToValidator (if isOpt then unwrapUnionFirst ty else ty) isOpt with
          | error er =>
              rw [h1] at hp
              rw [error_bind, ← hp]
              rfl
          | ok v =>
              rw [h1] at hp
              rw [ok_bind, isErrorResult_bind_pure, isErrorResult_mapProps ps, ← hp]
              rfl
termination_by (sizeOf props, 3)
decreasing_by
  all_goals simp_wf
  all_goals try omega
  all_goals try (have hq := sizeOf_unwrapUnionFirst_le ty; split <;> omega)
  all_goals (have hq := sizeOf_unwrapUnionFirst_le fst; split <;> omega)
end

theorem find?_beq_filter_bne (docs : List (Nat × Value)) (docId : Nat) :
    (docs.filter (fun e => e.1 != docId)).find? (fun e => e.1 == docId) = none := by
  rw [List.find?_eq_none]
  intro e he
  have h2 := (List.mem_filter.mp he).2
  simp [bne] at h2
  simp [h2]

/-- Claim C2: for every ordered query (modeled by its result sequence), `unique()` consults
only the first two results, and: zero matching documents succeed with the absent marker;
exactly one match succeeds with that document; two or more matches fail with the typed
not-unique failure. -/
theorem C2_unique_take2_branches {α : Type} :
    (∀ docs : List α, uniqueQuery docs = uniqueQuery (takeQuery 2 docs))
  ∧ uniqueQuery ([] : List α) = .success none
  ∧ (∀ d : α, uniqueQuery [d] = .success (some d))
  ∧ (∀ docs : List α, 2 ≤ docs.length → uniqueQuery docs = .failure .docNotUnique) := by
  refine ⟨?_, rfl, fun d => rfl, ?_⟩
  · intro docs
    simp [uniqueQuery, takeQuery, List.take_take]
  · intro docs h
    match docs with
    | [] => simp at h
    | [d] => simp at h
    | d1 :: d2 :: rest => rfl

/-- Witness for claim C2 at the literal fixtures with zero, one and two matching
documents. -/
theorem C2_unique_take2_branches_witness :
    uniqueQuery ([] : List Nat) = .success none
  ∧ uniqueQuery [7] = .success (some 7)
  ∧ uniqueQuery [7, 8] = .failure .docNotUnique
  ∧ uniqueQuery [7, 8, 9, 10] = uniqueQuery (takeQuery 2 [7, 8, 9, 10]) :=
  ⟨C2_unique_take2_branches.2.1,
   C2_unique_take2_branches.2.2.1 7,
   C2_unique_take2_branches.2.2.2 [7, 8] (by simp),
   C2_unique_take2_branches.1 [7, 8, 9, 10]⟩

/-- Claim C10: the `mutation` and `internalMutation` builders provide both the query-context
tag and the mutation-context tag before running the handler effect, each wrapper built from
the same native mutation context; consequently an effect that requires only the query
context runs unchanged inside a mutation (it receives exactly the query wrapper of that
native context, the same result the `query` builder would deliver over the native context
viewed as a query context). -/
theorem C10_mutation_provides_both_contexts :
    (∀ (ρ : Type) (handler : List Service → ρ) (native : NativeMutationCtx),
        runMutationHandler handler native
          = handler [.query (mkGenericQueryCtxOfMutation native),
                     .mutation (mkGenericMutationCtx native)])
  ∧ (∀ native : NativeMutationCtx,
        resolveQueryCtx [.query (mkGenericQueryCtxOfMutation native),
            .mutation (mkGenericMutationCtx native)]
          = some (mkGenericQueryCtxOfMutation native)
      ∧ resolveMutationCtx [.query (mkGenericQueryCtxOfMutation native),
            .mutation (mkGenericMutationCtx native)]
          = some (mkGenericMutationCtx native))
  ∧ (∀ (ρ : Type) (f : GenericQueryCtx → ρ) (native : NativeMutationCtx),
        runMutationHandler (requiresQueryCtx f) native
            = some (f (mkGenericQueryCtxOfMutation native))
      ∧ runMutationHandler (requiresQueryCtx f) native
            = runQueryHandler (requiresQueryCtx f) (toNativeQueryCtx native))
  ∧ (∀ (ρ : Type) (handler : List Service → ρ) (native : NativeMutationCtx),
        runInternalMutationHandler handler native = runMutationHandler handler native) :=
  ⟨fun _ _ _ => rfl, fun _ => ⟨rfl, rfl⟩, fun _ _ _ => ⟨rfl, rfl⟩, fun _ _ _ => rfl⟩

/-- Claim C4: `model(T, S)` derives four mutually consistent shapes: the create shape has
exactly the fields of `S`; the full-document shape has the fields of `S` plus a required
`_id` identifier tagged with `T` and a required numeric `_creationTime`; the
optional-identity shape has the fields of `S` plus those two identity fields made optional;
and the update shape is the full-document shape with every field made optional. The
disjointness hypotheses state that `S` does not itself declare the identity fields, the
condition under which `S.extend` concatenates. -/
theorem C4_model_four_shapes (tableName : String) (schema : List ModelField)
    (h1 : "_id" ∉ schema.map ModelField.name)
    (h2 : "_creationTime" ∉ schema.map ModelField.name) :
    (model tableName schema).DocumentWithoutSystemFields = schema
  ∧ (model tableName schema).Document
      = schema ++ [⟨"_id", .string (some tableName), false⟩,
                   ⟨"_creationTime", .number, false⟩]
  ∧ (model tableName schema).DocumentWithOptionalSystemFields
      = schema ++ [⟨"_id", .string (some tableName), true⟩,
                   ⟨"_creationTime", .number, true⟩]
  ∧ (model tableName schema).PartialDocument
      = (model tableName schema).Document.map (fun f => ⟨f.name, f.type, true⟩) :=
  ⟨rfl, rfl, rfl, rfl⟩

/-- Witness for claim C4 on the table `user` with the one-field schema `{name: string}`. -/
theorem C4_model_four_shapes_witness :
    ("_id" ∉ [ModelField.mk "name" (.string none) false].map ModelField.name)
  ∧ ("_creationTime" ∉ [ModelField.mk "name" (.string none) false].map ModelField.name)
  ∧ (model "user" [⟨"name", .string none, false⟩]).Document
      = [⟨"name", .string none, false⟩, ⟨"_id", .string (some "user"), false⟩,
         ⟨"_creationTime", .number, false⟩] :=
  ⟨by simp, by simp,
   (C4_model_four_shapes "user" [⟨"name", .string none, false⟩] (by simp) (by simp)).2.1⟩

/-- Claim C6: `getById` succeeds with the decoded full document when the database holds one
and fails with the typed document-not-found error when it holds none (in particular after a
delete on the consistent host); `getByIdNullable` never fails and returns `null` (modeled
as the absent marker in its success value) exactly when `getById` would fail; and
`getByIdOption` never fails and returns `Option.none` exactly when the document is
absent. -/
theorem C6_getById_variants :
    (∀ (host : Host) (s : DbState) (docId : Nat) (doc : Value),
        host.get s docId = some doc →
        getById host docId s = (.success (decodeDocument doc), s))
  ∧ (∀ (host : Host) (s : DbState) (docId : Nat),
        host.get s docId = none → getById host docId s = (.failure .docNotFound, s))
  ∧ (∀ (host : Host) (s : DbState) (docId : Nat),
        ∃ r, getByIdNullable host docId s = (.success r, s))
  ∧ (∀ (host : Host) (s : DbState) (docId : Nat),
        getByIdNullable host docId s = (.success none, s)
          ↔ getById host docId s = (.failure .docNotFound, s))
  ∧ (∀ (host : Host) (s : DbState) (docId : Nat),
        getByIdOption host docId s = (.success ((host.get s docId).map decodeDocument), s)
      ∧ ((host.get s docId).map decodeDocument = none ↔ host.get s docId = none))
  ∧ (∀ (s : DbState) (docId : Nat),
        getById stdHost docId (deleteById stdHost docId s).2
          = (.failure .docNotFound, (deleteById stdHost docId s).2)) := by
  refine ⟨?_, ?_, ?_, ?_, ?_, ?_⟩
  · intro host s docId doc h
    simp [getById, h]
  · intro host s docId h
    simp [getById, h]
  · intro host s docId
    cases h : host.get s docId with
    | none => exact ⟨none, by simp [getByIdNullable, getById, h]⟩
    | some doc => exact ⟨some (decodeDocument doc), by simp [getByIdNullable, getById, h]⟩
  · intro host s docId
    cases h : host.get s docId with
    | none => simp [getByIdNullable, getById, h]
    | some doc => simp [getByIdNullable, getById, h]
  · intro host s docId
    refine ⟨rfl, ?_⟩
    cases h : host.get s docId <;> simp
  · intro s docId
    simp only [deleteById, stdHost, getById]
    rw [find?_beq_filter_bne]
    rfl

/-- Witness for claim C6 on the consistent host with one stored document. -/
theorem C6_getById_variants_witness :
    stdHost.get ⟨[(0, [("name", Prim.s "a")])], 1⟩ 0 = some [("name", Prim.s "a")]
  ∧ getById stdHost 0 ⟨[(0, [("name", Prim.s "a")])], 1⟩
      = (.success [("name", Prim.s "a")], ⟨[(0, [("name", Prim.s "a")])], 1⟩)
  ∧ stdHost.get ⟨[], 0⟩ 3 = none
  ∧ getById stdHost 3 ⟨[], 0⟩ = (.failure .docNotFound, ⟨[], 0⟩) := by
  have h1 : stdHost.get ⟨[(0, [("name", Prim.s "a")])], 1⟩ 0 = some [("name", Prim.s "a")] :=
    rfl
  have h2 : stdHost.get ⟨[], 0⟩ 3 = none := rfl
  exact ⟨h1, C6_getById_variants.1 stdHost _ 0 _ h1, h2, C6_getById_variants.2.1 stdHost _ 3 h2⟩

/-- Claim C7: `insert` encodes the value against the create shape and, only on success,
writes the encoded value and returns the new identifier; a value that does not conform to
the create shape makes `insert` fail with the typed ParseError, distinct from
document-not-found, with the database state untouched; `patchById` and `replaceById` follow
the same encode-then-write pattern against the update shape and the optional-identity
shape. -/
theorem C7_insert_encode_then_write :
    (∀ (shape : List ModelField) (v : Value),
        encodeShape shape v = .error () ↔ conformsShape shape v = false)
  ∧ (∀ (shapes : ModelShapes) (tableName : String) (host : Host) (v : Value) (s : DbState),
        encodeShape shapes.DocumentWithoutSystemFields v = .error () →
        insert shapes tableName host v s = (.failure .parseError, s))
  ∧ (∀ (shapes : ModelShapes) (tableName : String) (host : Host) (v enc : Value)
        (s : DbState),
        encodeShape shapes.DocumentWithoutSystemFields v = .ok enc →
        insert shapes tableName host v s
          = (.success (host.insert s tableName enc).1, (host.insert s tableName enc).2))
  ∧ ConcaveError.parseError ≠ ConcaveError.docNotFound
  ∧ (∀ (shapes : ModelShapes) (host : Host) (docId : Nat) (v : Value) (s : DbState),
        encodeShape shapes.PartialDocument v = .error () →
        patchById shapes host docId v s = (.failure .parseError, s))
  ∧ (∀ (shapes : ModelShapes) (host : Host) (docId : Nat) (v enc : Value) (s : DbState),
        encodeShape shapes.PartialDocument v = .ok enc →
        patchById shapes host docId v s = (.success (), host.patch s docId enc))
  ∧ (∀ (shapes : ModelShapes) (host : Host) (docId : Nat) (v : Value) (s : DbState),
        encodeShape shapes.DocumentWithOptionalSystemFields v = .error () →
        replaceById shapes host docId v s = (.failure .parseError, s))
  ∧ (∀ (shapes : ModelShapes) (host : Host) (docId : Nat) (v enc : Value) (s : DbState),
        encodeShape shapes.DocumentWithOptionalSystemFields v = .ok enc →
        replaceById shapes host docId v s = (.success (), host.replace s docId enc)) := by
  refine ⟨?_, ?_, ?_, by simp, ?_, ?_, ?_, ?_⟩
  · intro shape v
    cases h : conformsShape shape v <;> simp [encodeShape, h]
  · intro shapes tableName host v s h
    simp [insert, h]
  · intro shapes tableName host v enc s h
    simp [insert, h]
  · intro shapes host docId v s h
    simp [patchById, h]
  · intro shapes host docId v enc s h
    simp [patchById, h]
  · intro shapes host docId v s h
    simp [replaceById, h]
  · intro shapes host docId v enc s h
    simp [replaceById, h]

/-- Witness for claim C7 on the `user` model: a conforming value is written, a
non-conforming value (wrong primitive type for `name`) fails with ParseError and leaves
the state unchanged. -/
theorem C7_insert_encode_then_write_witness :
    encodeShape (model "user" [⟨"name", .string none, false⟩]).DocumentWithoutSystemFields
        [("name", Prim.n 5)] = .error ()
  ∧ insert (model "user" [⟨"name", .string none, false⟩]) "user" stdHost
        [("name", Prim.n 5)] ⟨[], 0⟩ = (.failure .parseError, ⟨[], 0⟩)
  ∧ encodeShape (model "user" [⟨"name", .string none, false⟩]).DocumentWithoutSystemFields
        [("name", Prim.s "a")] = .ok [("name", Prim.s "a")]
  ∧ insert (model "user" [⟨"name", .string none, false⟩]) "user" stdHost
        [("name", Prim.s "a")] ⟨[], 0⟩
      = (.success 0, ⟨[(0, [("name", Prim.s "a")])], 1⟩) := by
  have hbad : encodeShape
      (model "user" [⟨"name", .string none, false⟩]).DocumentWithoutSystemFields
      [("name", Prim.n 5)] = .error () := by
    simp [model, extendFields, encodeShape, conformsShape, conformsField, lookupField,
      conformsAst]
  have hok : encodeShape
      (model "user" [⟨"name", .string none, false⟩]).DocumentWithoutSystemFields
      [("name", Prim.s "a")] = .ok [("name", Prim.s "a")] := by
    simp [model, extendFields, encodeShape, conformsShape, conformsField, lookupField,
      conformsAst]
  refine ⟨hbad, C7_insert_encode_then_write.2.1 _ "user" stdHost _ _ hbad, hok, ?_⟩
  exact C7_insert_encode_then_write.2.2.1 _ "user" stdHost _ _ _ hok

/-- Claim C5: in `insertAndGet`, `patchByIdAndGet` and `replaceByIdAndGet`, a post-write
re-read that does not find the document terminates the computation with a defect through
`E.orDieWith` - not a value in the typed failure channel - so ordinary typed-error
recovery (`catchAll`) does not see it, and it is distinct from the typed document-not-found
failure. -/
theorem C5_reread_failure_is_defect :
    (∀ (shapes : ModelShapes) (tableName : String) (host : Host) (v enc : Value)
        (s : DbState),
        encodeShape shapes.DocumentWithoutSystemFields v = .ok enc →
        host.get (host.insert s tableName enc).2 (host.insert s tableName enc).1 = none →
        insertAndGet shapes tableName host v s
            = (.die "Could not found inserted doc", (host.insert s tableName enc).2)
        ∧ ∀ handler, catchAllOutcome (insertAndGet shapes tableName host v) handler s
            = (.die "Could not found inserted doc", (host.insert s tableName enc).2))
  ∧ (∀ (shapes : ModelShapes) (host : Host) (docId : Nat) (v enc : Value) (s : DbState),
        encodeShape shapes.PartialDocument v = .ok enc →
        host.get (host.patch s docId enc) docId = none →
        patchByIdAndGet shapes host docId v s
            = (.die ("Could not found patched doc: " ++ toString docId),
               host.patch s docId enc)
        ∧ ∀ handler, catchAllOutcome (patchByIdAndGet shapes host docId v) handler s
            = (.die ("Could not found patched doc: " ++ toString docId),
               host.patch s docId enc))
  ∧ (∀ (shapes : ModelShapes) (host : Host) (docId : Nat) (v enc : Value) (s : DbState),
        encodeShape shapes.DocumentWithOptionalSystemFields v = .ok enc →
        host.get (host.replace s docId enc) docId = none →
        replaceByIdAndGet shapes host docId v s
            = (.die ("Could not found replaced doc: " ++ toString docId),
               host.replace s docId enc)
        ∧ ∀ handler, catchAllOutcome (replaceByIdAndGet shapes host docId v) handler s
            = (.die ("Could not found replaced doc: " ++ toString docId),
               host.replace s docId enc))
  ∧ (∀ (m : String) (e : ConcaveError), (Outcome.die m : Outcome Value) ≠ .failure e) := by
  refine ⟨?_, ?_, ?_, by simp⟩
  · intro shapes tableName host v enc s h1 h2
    have hmain : insertAndGet shapes tableName host v s
        = (.die "Could not found inserted doc", (host.insert s tableName enc).2) := by
      simp [insertAndGet, insert, h1, getById, h2]
    exact ⟨hmain, fun handler => by simp [catchAllOutcome, hmain]⟩
  · intro shapes host docId v enc s h1 h2
    have hmain : patchByIdAndGet shapes host docId v s
        = (.die ("Could not found patched doc: " ++ toString docId),
           host.patch s docId enc) := by
      simp [patchByIdAndGet, patchById, h1, getById, h2]
    exact ⟨hmain, fun handler => by simp [catchAllOutcome, hmain]⟩
  · intro shapes host docId v enc s h1 h2
    have hmain : replaceByIdAndGet shapes host docId v s
        = (.die ("Could not found replaced doc: " ++ toString docId),
           host.replace s docId enc) := by
      simp [replaceByIdAndGet, replaceById, h1, getById, h2]
    exact ⟨hmain, fun handler => by simp [catchAllOutcome, hmain]⟩

/-- Witness for claim C5 on the forgetful host, whose writes succeed but whose reads find
nothing: the re-read after each write fails and the computation dies. -/
theorem C5_reread_failure_is_defect_witness :
    encodeShape (model "user" [⟨"name", .string none, false⟩]).DocumentWithoutSystemFields
        [("name", Prim.s "a")] = .ok [("name", Prim.s "a")]
  ∧ forgetfulHost.get ⟨[(0, [("name", Prim.s "a")])], 1⟩ 0 = none
  ∧ insertAndGet (model "user" [⟨"name", .string none, false⟩]) "user" forgetfulHost
        [("name", Prim.s "a")] ⟨[], 0⟩
      = (.die "Could not found inserted doc", ⟨[(0, [("name", Prim.s "a")])], 1⟩)
  ∧ encodeShape (model "user" [⟨"name", .string none, false⟩]).PartialDocument
        [("name", Prim.s "a")] = .ok [("name", Prim.s "a")]
  ∧ patchByIdAndGet (model "user" [⟨"name", .string none, false⟩]) forgetfulHost 3
        [("name", Prim.s "a")] ⟨[], 0⟩
      = (.die ("Could not found patched doc: " ++ toString 3), ⟨[], 0⟩)
  ∧ encodeShape
        (model "user" [⟨"name", .string none, false⟩]).DocumentWithOptionalSystemFields
        [("name", Prim.s "a")] = .ok [("name", Prim.s "a")]
  ∧ replaceByIdAndGet (model "user" [⟨"name", .string none, false⟩]) forgetfulHost 3
        [("name", Prim.s "a")] ⟨[], 0⟩
      = (.die ("Could not found replaced doc: " ++ toString 3), ⟨[], 0⟩) := by
  have hcreate : encodeShape
      (model "user" [⟨"name", .string none, false⟩]).DocumentWithoutSystemFields
      [("name", Prim.s "a")] = .ok [("name", Prim.s "a")] := by
    simp [model, extendFields, encodeShape, conformsShape, conformsField, lookupField,
      conformsAst]
  have hpartial : encodeShape
      (model "user" [⟨"name", .string none, false⟩]).PartialDocument
      [("name", Prim.s "a")] = .ok [("name", Prim.s "a")] := by
    simp [model, extendFields, markAllOptional, SystemFields, OptionalSystemFields, DocId,
      encodeShape, conformsShape, conformsField, lookupField, conformsAst]
  have hopt : encodeShape
      (model "user" [⟨"name", .string none, false⟩]).DocumentWithOptionalSystemFields
      [("name", Prim.s "a")] = .ok [("name", Prim.s "a")] := by
    simp [model, extendFields, markAllOptional, SystemFields, OptionalSystemFields, DocId,
      encodeShape, conformsShape, conformsField, lookupField, conformsAst]
  refine ⟨hcreate, rfl,
    (C5_reread_failure_is_defect.1 _ "user" forgetfulHost _ _ ⟨[], 0⟩ hcreate rfl).1,
    hpartial,
    (C5_reread_failure_is_defect.2.1 _ forgetfulHost 3 _ _ ⟨[], 0⟩ hpartial rfl).1,
    hopt,
    (C5_reread_failure_is_defect.2.2.1 _ forgetfulHost 3 _ _ ⟨[], 0⟩ hopt rfl).1⟩

theorem mapElements_append_optional (pre : List (AST × Bool)) (ty : AST)
    (post : List (AST × Bool)) (evs : List Validator) (h : mapElements pre = .ok evs) :
    mapElements (pre ++ (ty, true) :: post) = .error .optionalTupleElement := by
  induction pre generalizing evs with
  | nil => simp [mapElements, throw_eq_error]
  | cons e pre ih =>
      obtain ⟨t, b⟩ := e
      simp only [mapElements] at h
      simp only [List.cons_append, mapElements]
      cases b with
      | true => simp [throw_eq_error] at h
      | false =>
          simp only [Bool.false_eq_true, if_false] at h ⊢
          cases h1 : mapAstToValidator t false with
          | error er => rw [h1, error_bind] at h; cases h
          | ok v =>
              rw [h1, ok_bind] at h
              rw [ok_bind]
              cases h2 : mapElements pre with
              | error er => rw [h2, error_bind] at h; cases h
              | ok vs2 => rw [ih vs2 h2, error_bind]

/-- Claim C1, evaluated at the failing input: the bridge maps the two-literal union
made of the `true` and `false` literals to the two-branch union of literal validators and
maps the boolean primitive to the boolean validator, and the two results differ - there is
no boolean-union special case in the runtime bridge, contrary to the claim and to the
function's own declared (type-level) result. -/
theorem C1_boolean_union_evaluation :
    mapAstToValidator (.union [.literal (.boolean true), .literal (.boolean false)]) false
        = .ok (.vUnion [.vLiteral (.boolean true), .vLiteral (.boolean false)])
  ∧ mapAstToValidator .boolean false = .ok .vBoolean
  ∧ Validator.vUnion [.vLiteral (.boolean true), .vLiteral (.boolean false)]
      ≠ Validator.vBoolean := by
  refine ⟨?_, ?_, by simp⟩
  · simp [mapAstToValidator, mapAstToValidatorCore, mapMembers, pure_eq_ok, ok_bind]
  · simp [mapAstToValidator, mapAstToValidatorCore, pure_eq_ok, ok_bind]

/-- Claim C3: for a struct (a type literal without index signatures) the bridge emits a
validator-object whose per-field validator comes from the declared type, except that an
optional field whose declared type is encoded as a union is unwrapped to the union's first
member - the remaining members are ignored - before recursing, and the result is wrapped in
the optional marker; in particular the struct `{name: string, age: optional(number)}`,
whose `age` field is encoded as `union(number, undefined)`, maps to
`object({name: string-validator, age: optional(number-validator)})` with no
union-with-undefined artifact. -/
theorem C3_struct_optional_unwrap :
    (∀ (name : String) (t : AST) (ts : List AST) (ps : List (PropName × AST × Bool))
        (v : Validator) (fs : List (String × Validator)),
        mapAstToValidatorCore t = .ok v → mapProps ps = .ok fs →
        mapProps ((.str name, .union (t :: ts), true) :: ps)
          = .ok ((name, .vOptional v) :: fs))
  ∧ (∀ (name : String) (ty : AST) (ps : List (PropName × AST × Bool)) (v : Validator)
        (fs : List (String × Validator)),
        mapAstToValidatorCore ty = .ok v → mapProps ps = .ok fs →
        mapProps ((.str name, ty, false) :: ps) = .ok ((name, v) :: fs))
  ∧ (∀ (props : List (PropName × AST × Bool)) (fields : List (String × Validator)),
        mapProps props = .ok fields →
        mapAstToValidator (.typeLiteral props []) false = .ok (.vObject fields))
  ∧ mapAstToValidator (.typeLiteral [(.str "name", .string none, false),
        (.str "age", .union [.number, .undefinedK], true)] []) false
      = .ok (.vObject [("name", .vString), ("age", .vOptional .vFloat64)]) := by
  refine ⟨?_, ?_, ?_, ?_⟩
  · intro name t ts ps v fs h1 h2
    simp only [mapProps, unwrapUnionFirst, if_true]
    rw [mapAstToValidator, h1, ok_bind]
    simp [h2, ok_bind, pure_eq_ok]
  · intro name ty ps v fs h1 h2
    simp only [mapProps, Bool.false_eq_true, if_false]
    rw [mapAstToValidator, h1, ok_bind]
    simp [h2, ok_bind, pure_eq_ok]
  · intro props fields h
    rw [mapAstToValidator]
    simp only [mapAstToValidatorCore, mapAstTypeLiteralToValidator,
      mapPropertySignaturesToVObject]
    rw [h, ok_bind]
    simp [pure_eq_ok, ok_bind]
  · simp [mapAstToValidator, mapAstToValidatorCore, mapAstTypeLiteralToValidator,
      mapPropertySignaturesToVObject, mapProps, unwrapUnionFirst, pure_eq_ok, ok_bind]

/-- Witness for claim C3: the optional unwrap takes only the first union member (the
dropped second member here is the unsupported undefined node) and wraps the result in the
optional marker. -/
theorem C3_struct_optional_unwrap_witness :
    mapAstToValidatorCore .number = .ok .vFloat64
  ∧ mapProps [] = .ok []
  ∧ mapProps [(.str "age", .union [.number, .undefinedK], true)]
      = .ok [("age", .vOptional .vFloat64)]
  ∧ mapAstToValidator
        (.typeLiteral [(.str "age", .union [.number, .undefinedK], true)] []) false
      = .ok (.vObject [("age", .vOptional .vFloat64)]) := by
  have h1 : mapAstToValidatorCore .number = .ok .vFloat64 := by
    simp [mapAstToValidatorCore, pure_eq_ok]
  have h2 : mapProps ([] : List (PropName × AST × Bool)) = .ok [] := by
    simp [mapProps, pure_eq_ok]
  have h3 := C3_struct_optional_unwrap.1 "age" .number [.undefinedK] [] .vFloat64 [] h1 h2
  exact ⟨h1, h2, h3, C3_struct_optional_unwrap.2.2.1 _ _ h3⟩

/-- Claim C8: for a tuple with no optional elements, the element validators collected from
the required elements and the rest elements determine the output - exactly one collected
validator gives `array(elementValidator)`, two or more (in particular multiple distinct
element types) give `array(union(...elementValidators))` - and a tuple containing an
optional element makes the bridge throw immediately. -/
theorem C8_tuple_mapping :
    (∀ (es : List (AST × Bool)) (rest : List AST) (evs rvs : List Validator) (v : Validator),
        mapElements es = .ok evs → mapMembers rest = .ok rvs → evs ++ rvs = [v] →
        mapAstToValidator (.tuple es rest) false = .ok (.vArray v))
  ∧ (∀ (es : List (AST × Bool)) (rest : List AST) (evs rvs : List Validator)
        (v1 v2 : Validator) (vs : List Validator),
        mapElements es = .ok evs → mapMembers rest = .ok rvs →
        evs ++ rvs = v1 :: v2 :: vs →
        mapAstToValidator (.tuple es rest) false
          = .ok (.vArray (.vUnion (v1 :: v2 :: vs))))
  ∧ (∀ (pre : List (AST × Bool)) (ty : AST) (post : List (AST × Bool)) (rest : List AST)
        (evs : List Validator),
        mapElements pre = .ok evs →
        mapAstToValidator (.tuple (pre ++ (ty, true) :: post) rest) false
          = .error .optionalTupleElement) := by
  refine ⟨?_, ?_, ?_⟩
  · intro es rest evs rvs v h1 h2 h3
    rw [mapAstToValidator]
    simp only [mapAstToValidatorCore, mapAstTupleTypeToVArray]
    rw [h1, ok_bind, h2, ok_bind, h3]
    simp [pure_eq_ok, ok_bind]
  · intro es rest evs rvs v1 v2 vs h1 h2 h3
    rw [mapAstToValidator]
    simp only [mapAstToValidatorCore, mapAstTupleTypeToVArray]
    rw [h1, ok_bind, h2, ok_bind, h3]
    simp [pure_eq_ok, ok_bind]
  · intro pre ty post rest evs h1
    rw [mapAstToValidator]
    simp only [mapAstToValidatorCore, mapAstTupleTypeToVArray]
    rw [mapElements_append_optional pre ty post evs h1, error_bind, error_bind]

/-- Witness for claim C8: `tuple(string)` maps to `array(string)`, `tuple(string, number)`
maps to `array(union(string, number))`, and a tuple whose second element is optional
throws. -/
theorem C8_tuple_mapping_witness :
    mapElements [((.string none : AST), false)] = .ok [.vString]
  ∧ mapMembers [] = .ok []
  ∧ mapAstToValidator (.tuple [(.string none, false)] []) false = .ok (.vArray .vString)
  ∧ mapElements [((.string none : AST), false), ((.number : AST), false)]
      = .ok [.vString, .vFloat64]
  ∧ mapAstToValidator (.tuple [(.string none, false), (.number, false)] []) false
      = .ok (.vArray (.vUnion [.vString, .vFloat64]))
  ∧ mapAstToValidator (.tuple [(.string none, false), (.number, true)] []) false
      = .error .optionalTupleElement := by
  have h1 : mapElements [((.string none : AST), false)] = .ok [.vString] := by
    simp [mapElements, mapAstToValidator, mapAstToValidatorCore, pure_eq_ok, ok_bind]
  have h2 : mapMembers ([] : List AST) = .ok [] := by simp [mapMembers, pure_eq_ok]
  have h3 : mapElements [((.string none : AST), false), ((.number : AST), false)]
      = .ok [.vString, .vFloat64] := by
    simp [mapElements, mapAstToValidator, mapAstToValidatorCore, pure_eq_ok, ok_bind]
  refine ⟨h1, h2, C8_tuple_mapping.1 _ _ _ _ _ h1 h2 rfl, h3,
    C8_tuple_mapping.2.1 _ _ _ _ _ _ _ h3 h2 rfl, ?_⟩
  exact C8_tuple_mapping.2.2 [((.string none : AST), false)] .number [] [] [.vString] h1

/-- Counterexample for claim C9 as stated: the empty tuple contains none of the three
listed offending constructs yet the bridge throws on it; the struct with an optional field
whose union encoding hides the unsupported undefined node in its second member contains a
listed offending construct yet the bridge succeeds; and a struct with a symbol-named
property contains none of the three listed constructs yet the bridge throws on it. -/
theorem C9_counterexample :
    mapAstToValidator (.tuple [] []) false = .error .emptyTuple
  ∧ containsOffendingConstruct (.tuple [] []) = false
  ∧ containsOffendingConstruct
      (.typeLiteral [(.str "a", .union [.number, .undefinedK], true)] []) = true
  ∧ mapAstToValidator
        (.typeLiteral [(.str "a", .union [.number, .undefinedK], true)] []) false
      = .ok (.vObject [("a", .vOptional .vFloat64)])
  ∧ containsOffendingConstruct (.typeLiteral [(.sym "k", .number, false)] []) = false
  ∧ mapAstToValidator (.typeLiteral [(.sym "k", .number, false)] []) false
      = .error .nonStringObjectKey := by
  refine ⟨?_, ?_, ?_, ?_, ?_, ?_⟩
  · simp [mapAstToValidator, mapAstToValidatorCore, mapAstTupleTypeToVArray, mapElements,
      mapMembers, pure_eq_ok, throw_eq_error, ok_bind, error_bind]
  · simp [containsOffendingConstruct, anyOffendingElement, anyOffendingMember]
  · simp [containsOffendingConstruct, anyOffendingProp, anyOffendingMember,
      anyOffendingElement, anyOffendingIndexSig]
  · simp [mapAstToValidator, mapAstToValidatorCore, mapAstTypeLiteralToValidator,
      mapPropertySignaturesToVObject, mapProps, unwrapUnionFirst, pure_eq_ok, ok_bind]
  · simp [containsOffendingConstruct, anyOffendingProp, anyOffendingMember,
      anyOffendingElement, anyOffendingIndexSig]
  · simp [mapAstToValidator, mapAstToValidatorCore, mapAstTypeLiteralToValidator,
      mapPropertySignaturesToVObject, mapProps, pure_eq_ok, ok_bind, error_bind,
      throw_eq_error]

/-- Claim C9 as amended: the bridge raises a synchronous construction error exactly when
its traversal reaches an optional tuple element, a tuple with no required and no rest
elements, a struct property whose name is not a string, an index signature whose key
parameter is not a plain string node, or a node kind outside the supported set - where the
traversal of an optional property whose type is a union descends only into the union's
first member - and in the record-key and unsupported-kind cases the error names the
offending construct's kind. -/
theorem C9_bridge_error_conditions :
    (∀ (ast : AST) (isOptionalProperty : Bool),
        (∃ e, mapAstToValidator ast isOptionalProperty = .error e) ↔ reachesBad ast = true)
  ∧ (∀ (p valueAst : AST), isStringKind p = false →
        mapIndexSignatureToVRecord (p, valueAst)
          = .error (.nonStringRecordKey (astTag p)))
  ∧ (∀ (ast : AST) (isOptionalProperty : Bool), isSupportedKind ast = false →
        mapAstToValidator ast isOptionalProperty = .error (.unsupported (astTag ast)))
  ∧ (∀ (d : String) (ty : AST) (isOptionalProperty : Bool)
        (ps : List (PropName × AST × Bool)),
        mapProps ((.sym d, ty, isOptionalProperty) :: ps) = .error .nonStringObjectKey) := by
  refine ⟨?_, ?_, ?_, ?_⟩
  · intro ast isOptionalProperty
    rw [← isErrorResult_mapAstToValidator ast isOptionalProperty]
    exact (isErrorResult_true_iff _).symm
  · intro p valueAst h
    cases p <;>
      simp_all [mapIndexSignatureToVRecord, isStringKind, astTag, throw_eq_error]
  · intro ast isOptionalProperty h
    cases ast <;>
      simp_all [mapAstToValidator, mapAstToValidatorCore, isSupportedKind, astTag,
        throw_eq_error, error_bind]
  · intro d ty isOptionalProperty ps
    simp [mapProps, throw_eq_error]

/-- Witness for claim C9: a numeric record key, an unsupported undefined node, a
symbol-named struct property, and the error-characterization applied to a tuple with an
optional element. -/
theorem C9_bridge_error_conditions_witness :
    mapIndexSignatureToVRecord (.number, .string none)
        = .error (.nonStringRecordKey "NumberKeyword")
  ∧ mapAstToValidator .undefinedK false = .error (.unsupported "UndefinedKeyword")
  ∧ mapProps [(.sym "k", .number, false)] = .error .nonStringObjectKey
  ∧ ((∃ e, mapAstToValidator (.tuple [(.number, true)] []) false = .error e)
      ↔ reachesBad (.tuple [(.number, true)] []) = true) :=
  ⟨C9_bridge_error_conditions.2.1 .number (.string none) rfl,
   C9_bridge_error_conditions.2.2.1 .undefinedK false rfl,
   C9_bridge_error_conditions.2.2.2 "k" .number false [],
   C9_bridge_error_conditions.1 (.tuple [(.number, true)] []) false⟩

end Concave
